import Mathlib

/-!
Verification of beanmachine's `GlobalState` and `out_nodes`.

Shallow embedding of `src/beanmachine/graph/global/global_state.cpp` and
`minibmg/out_nodes.cpp`.  Machine doubles are modelled as exact rationals
(`ℚ`); `Eigen::VectorXd` values become `List ℚ`; a thrown
`std::invalid_argument` becomes an `Except.error` value that carries the
state at the moment of the throw (the C++ code only throws before any
write, so the carried state is the caller's unmodified state).
-/

/-- The `VariableType` tag together with the payload of a `NodeValue`:
either a scalar double (`_double`) or a matrix (`_matrix`, kept in the
flat layout that `Eigen::Map<Eigen::VectorXd>` exposes). -/
inductive NodeValue where
  | scalar (d : ℚ)
  | matrix (m : List ℚ)
deriving DecidableEq, Repr

/-- The `TransformType` enum: `NONE` (identity) or `LOG`. -/
inductive TransformType where
  | NONE
  | LOG
deriving DecidableEq, Repr

/-- The fields of a graph `Node` that `GlobalState` reads or writes:
the observed flag, the stochastic tag, the original (constrained) value
`value`, the reparameterized `unconstrained_value` of a stochastic
operator, the gradient accumulator `back_grad1`, and the node's
`transform_type`. -/
structure GNode where
  is_observed : Bool
  is_stochastic : Bool
  value : NodeValue
  unconstrained_value : NodeValue
  back_grad1 : NodeValue
  transform_type : TransformType
deriving DecidableEq, Repr

/-- The `std::invalid_argument` exception with its message. -/
inductive Err where
  | invalid_argument (msg : String)
deriving DecidableEq, Repr

/-- Modelled from the spec: `get_original_value(true)` forces
recomputation of the node's original (constrained) value from its
unconstrained value via the node's transform (the `StochasticOperator`
implementation is outside `src/`).  The interpretation `T` of each
transform kind is a parameter of the development. -/
def GNode.get_original_value (T : TransformType → NodeValue → NodeValue) (n : GNode) :
    GNode :=
  { n with value := T n.transform_type n.unconstrained_value }

/-- Number of flat scalar slots a `NodeValue` occupies: 1 for a scalar,
`_matrix.size()` for a matrix. -/
def NodeValue.flatSize : NodeValue → Nat
  | .scalar _ => 1
  | .matrix m => m.length

/-- The flat scalar content of a `NodeValue`. -/
def NodeValue.flatten : NodeValue → List ℚ
  | .scalar d => [d]
  | .matrix m => m

/-- The `flat_size` computation of the constructor (lines 56–66): sum 1
per scalar-valued unconstrained value, the matrix element count
otherwise. -/
def computeFlatSize (stoch : List GNode) : Nat :=
  (stoch.map fun n => n.unconstrained_value.flatSize).sum

/-- The member fields of `GlobalState` that the translated methods
touch. -/
structure GlobalState where
  ordered_support : List GNode
  stochastic_nodes : List GNode
  deterministic_nodes : List GNode
  flat_size : Nat
  stochastic_unconstrained_vals_backup : List NodeValue
  stochastic_unconstrained_grads_backup : List NodeValue
  log_prob : ℚ
deriving DecidableEq, Repr

/-- `GlobalState::backup_unconstrained_values` (lines 73–81): overwrite
backup slot `i` with stochastic node `i`'s current unconstrained
value. -/
def GlobalState.backup_unconstrained_values (gs : GlobalState) : GlobalState :=
  { gs with
    stochastic_unconstrained_vals_backup :=
      gs.stochastic_nodes.map GNode.unconstrained_value }

/-- `GlobalState::backup_unconstrained_grads` (lines 83–89). -/
def GlobalState.backup_unconstrained_grads (gs : GlobalState) : GlobalState :=
  { gs with
    stochastic_unconstrained_grads_backup :=
      gs.stochastic_nodes.map GNode.back_grad1 }

/-- `GlobalState::revert_unconstrained_values` (lines 91–100): for each
stochastic node, overwrite its unconstrained value with backup slot `i`,
then call `get_original_value(true)`. -/
def GlobalState.revert_unconstrained_values
    (T : TransformType → NodeValue → NodeValue) (gs : GlobalState) : GlobalState :=
  { gs with
    stochastic_nodes :=
      List.zipWith
        (fun n b => GNode.get_original_value T { n with unconstrained_value := b })
        gs.stochastic_nodes gs.stochastic_unconstrained_vals_backup }

/-- `GlobalState::revert_unconstrained_grads` (lines 102–108). -/
def GlobalState.revert_unconstrained_grads (gs : GlobalState) : GlobalState :=
  { gs with
    stochastic_nodes :=
      List.zipWith (fun n b => { n with back_grad1 := b })
        gs.stochastic_nodes gs.stochastic_unconstrained_grads_backup }

/-- `GlobalState::get_flattened_unconstrained_values` (lines 122–139):
concatenate each stochastic node's unconstrained value (one slot for a
scalar, a contiguous block for a matrix), in `stochastic_nodes`
order. -/
def GlobalState.get_flattened_unconstrained_values (gs : GlobalState) : List ℚ :=
  (gs.stochastic_nodes.map fun n => n.unconstrained_value.flatten).flatten

/-- One loop step of `set_flattened_unconstrained_values`: write the
slice starting at the cursor into the node's unconstrained value
(`value->_double = flattened_values[i]` for a scalar,
`value->_matrix = flattened_values.segment(i, value->_matrix.size())`
for a matrix). -/
def GNode.write_unconstrained (n : GNode) (xs : List ℚ) : GNode :=
  match n.unconstrained_value with
  | .scalar _ => { n with unconstrained_value := .scalar (xs.headD 0) }
  | .matrix m => { n with unconstrained_value := .matrix (xs.take m.length) }

/-- The loop body of `set_flattened_unconstrained_values` (lines
148–165): write each node's slice, advance the cursor by the node's
current width, and re-sync the original value via
`get_original_value(true)` when the transform is not `NONE`. -/
def setFlattenedLoop (T : TransformType → NodeValue → NodeValue) :
    List GNode → List ℚ → List GNode
  | [], _ => []
  | n :: ns, xs =>
    (if (n.write_unconstrained xs).transform_type ≠ TransformType.NONE
     then (n.write_unconstrained xs).get_original_value T
     else n.write_unconstrained xs)
      :: setFlattenedLoop T ns (xs.drop n.unconstrained_value.flatSize)

/-- `GlobalState::set_flattened_unconstrained_values` (lines 141–166):
throw `std::invalid_argument` if the input length differs from
`flat_size` (before any write — the error carries the unmodified
state), otherwise run the write loop. -/
def GlobalState.set_flattened_unconstrained_values
    (T : TransformType → NodeValue → NodeValue) (gs : GlobalState)
    (flattened_values : List ℚ) : Except (Err × GlobalState) GlobalState :=
  if flattened_values.length ≠ gs.flat_size then
    .error (.invalid_argument
      "The size of flattened_values is inconsistent with the values in the graph", gs)
  else
    .ok { gs with stochastic_nodes := setFlattenedLoop T gs.stochastic_nodes flattened_values }

/-- `GlobalState::add_to_stochastic_unconstrained_nodes` (lines
110–120): throw on size mismatch (before any write), otherwise fetch
the flattened values, add the increment componentwise, and apply the
sum via `set_flattened_unconstrained_values`. -/
def GlobalState.add_to_stochastic_unconstrained_nodes
    (T : TransformType → NodeValue → NodeValue) (gs : GlobalState)
    (increment : List ℚ) : Except (Err × GlobalState) GlobalState :=
  if increment.length ≠ gs.flat_size then
    .error (.invalid_argument
      "The size of increment is inconsistent with the values in the graph", gs)
  else
    let flattened_values := gs.get_flattened_unconstrained_values
    let sum := List.zipWith (· + ·) flattened_values increment
    gs.set_flattened_unconstrained_values T sum

/-- `GlobalState::get_log_prob` (lines 185–187). -/
def GlobalState.get_log_prob (gs : GlobalState) : ℚ :=
  gs.log_prob

/-- Modelled from the spec: `update_log_prob` caches the joint
log-probability computed by the external `Graph::_full_log_prob` over
`ordered_support`; the externally computed scalar is passed in as
`lp`. -/
def GlobalState.update_log_prob (gs : GlobalState) (lp : ℚ) : GlobalState :=
  { gs with log_prob := lp }

/-- Modelled from the spec: `update_backgrad` has the external
`Graph::update_backgrad` recompute every node's gradient accumulator
over `ordered_support`; the recomputation is represented by a per-node
gradient assignment `f`. -/
def GlobalState.update_backgrad (gs : GlobalState) (f : GNode → NodeValue) : GlobalState :=
  { gs with
    ordered_support := gs.ordered_support.map fun n => { n with back_grad1 := f n }
    stochastic_nodes := gs.stochastic_nodes.map fun n => { n with back_grad1 := f n }
    deterministic_nodes := gs.deterministic_nodes.map fun n => { n with back_grad1 := f n } }

/-- The constructor `GlobalState::GlobalState` (lines 17–71) from the
partition pass on: the argument `ordered_support` stands for the
support node list after the external initialization (`eval`,
`get_unconstrained_value(true)`) and gradient (`update_backgrad`)
passes; `lp` stands for the external `_full_log_prob` result.  The
partition pass, the backup-vector initialization, the `flat_size`
computation, and the final `backup_*`/`update_log_prob` calls are
translated from the source. -/
def GlobalState.construct (ordered_support : List GNode) (lp : ℚ) : GlobalState :=
  let stoch := ordered_support.filter fun n => n.is_stochastic && !n.is_observed
  let det := ordered_support.filter fun n => !n.is_stochastic
  let gs : GlobalState :=
    { ordered_support := ordered_support
      stochastic_nodes := stoch
      deterministic_nodes := det
      flat_size := computeFlatSize stoch
      stochastic_unconstrained_vals_backup := stoch.map GNode.unconstrained_value
      stochastic_unconstrained_grads_backup := stoch.map GNode.back_grad1
      log_prob := 0 }
  ((gs.backup_unconstrained_values).backup_unconstrained_grads).update_log_prob lp

/-- "Mutate any stochastic value": positionally overwrite the first
`newVals.length` stochastic nodes' unconstrained values with arbitrary
new values (the adversarial mutation between a backup and a revert in
the backup/revert contract). -/
def mutateUnconstrained : List GNode → List NodeValue → List GNode
  | [], _ => []
  | ns, [] => ns
  | n :: ns, v :: vs => { n with unconstrained_value := v } :: mutateUnconstrained ns vs

/-- Mutation lifted to the whole state (only the stochastic nodes'
unconstrained values change). -/
def GlobalState.mutate (gs : GlobalState) (newVals : List NodeValue) : GlobalState :=
  { gs with stochastic_nodes := mutateUnconstrained gs.stochastic_nodes newVals }

/-- The parallel-backup alignment invariant: each backup sequence has
exactly one slot per stochastic node. -/
def GlobalState.aligned (gs : GlobalState) : Prop :=
  gs.stochastic_unconstrained_vals_backup.length = gs.stochastic_nodes.length
  ∧ gs.stochastic_unconstrained_grads_backup.length = gs.stochastic_nodes.length

instance (gs : GlobalState) : Decidable gs.aligned := by
  unfold GlobalState.aligned; infer_instance

/-- A constant gradient assignment, standing for one concrete outcome
of the external reverse-mode differentiation pass. -/
def f0 : GNode → NodeValue := fun _ => .scalar 0

/-- The successor state of a successful
`set_flattened_unconstrained_values` call (abbreviation for the `ok`
branch of the translation). -/
def GlobalState.setResult (T : TransformType → NodeValue → NodeValue)
    (gs : GlobalState) (xs : List ℚ) : GlobalState :=
  { gs with stochastic_nodes := setFlattenedLoop T gs.stochastic_nodes xs }

/-- The successor state of a successful
`add_to_stochastic_unconstrained_nodes` call. -/
def GlobalState.addResult (T : TransformType → NodeValue → NodeValue)
    (gs : GlobalState) (v : List ℚ) : GlobalState :=
  gs.setResult T (List.zipWith (· + ·) gs.get_flattened_unconstrained_values v)

/-! ## Concrete fixture used by the witnesses -/

/-- Identity interpretation of the transforms, used by the witnesses. -/
def T0 : TransformType → NodeValue → NodeValue := fun _ v => v

/-- A scalar-valued stochastic node with the identity transform. -/
def nodeS : GNode :=
  { is_observed := false, is_stochastic := true, value := .scalar 2,
    unconstrained_value := .scalar 2, back_grad1 := .scalar 0,
    transform_type := .NONE }

/-- A 3-vector-valued stochastic node with the `LOG` transform. -/
def nodeM : GNode :=
  { is_observed := false, is_stochastic := true, value := .scalar 5,
    unconstrained_value := .matrix [1, 2, 3], back_grad1 := .scalar 1,
    transform_type := .LOG }

/-- A second scalar-valued stochastic node. -/
def nodeS2 : GNode :=
  { is_observed := false, is_stochastic := true, value := .scalar 4,
    unconstrained_value := .scalar 4, back_grad1 := .scalar 0,
    transform_type := .NONE }

/-- A deterministic node. -/
def nodeD : GNode :=
  { is_observed := false, is_stochastic := false, value := .scalar 9,
    unconstrained_value := .scalar 9, back_grad1 := .scalar 0,
    transform_type := .NONE }

/-- A concrete `GlobalState` with one scalar and one 3-vector
stochastic node (`flat_size = 4`). -/
def gs0 : GlobalState :=
  { ordered_support := [nodeS, nodeD, nodeM]
    stochastic_nodes := [nodeS, nodeM]
    deterministic_nodes := [nodeD]
    flat_size := 4
    stochastic_unconstrained_vals_backup := [.scalar 2, .matrix [1, 2, 3]]
    stochastic_unconstrained_grads_backup := [.scalar 0, .scalar 1]
    log_prob := 0 }


/-! ## Support computation (constructor lines 17–23)

`Graph::compute_support` itself lives outside `src/`; it is modelled
from the spec below.  A graph is a list of nodes; a node's identity is
its index; the graph invariant (spec §3) is that every input index is
strictly smaller than the node's own index. -/

/-- The per-node data the support computation reads: the declared input
indices and the observed/queried flags. -/
structure SNode where
  inputs : List Nat
  is_observed : Bool
  is_queried : Bool
deriving DecidableEq, Repr, Inhabited

/-- The graph invariant of spec §3: node inputs always reference nodes
added earlier. -/
def SWF (g : List SNode) : Prop :=
  ∀ i, i < g.length → ∀ j ∈ (g.getD i default).inputs, j < i

instance (g : List SNode) : Decidable (SWF g) := by
  unfold SWF; infer_instance

/-- Modelled from the spec: `Graph::compute_support` (outside `src/`)
returns the ancestor-closure of the observed and queried nodes,
including those nodes themselves.  Computed by seeding the set with the
observed/queried roots and sweeping the node ids once in descending
order, adding the inputs of every member (inputs have smaller ids, so
one descending sweep reaches the closure). -/
def computeSupport (g : List SNode) : List Nat :=
  (List.range g.length).reverse.foldl
    (fun s i => if i ∈ s then s ++ (g.getD i default).inputs else s)
    ((List.range g.length).filter fun i =>
      (g.getD i default).is_observed || (g.getD i default).is_queried)

/-- Constructor lines 20–23: iterate the support set (a `std::set<uint>`,
i.e. in ascending id order) and collect the member ids into
`ordered_support`. -/
def orderedSupportIds (g : List SNode) : List Nat :=
  (List.range g.length).filter fun i => decide (i ∈ computeSupport g)

/-- A concrete support graph for the witnesses: node 1 is queried and
consumes node 0; node 2 is outside the support. -/
def gS1 : List SNode :=
  [{ inputs := [], is_observed := false, is_queried := false },
   { inputs := [0], is_observed := false, is_queried := true },
   { inputs := [], is_observed := false, is_queried := false }]

/-! ## minibmg `out_nodes` (out_nodes.cpp)

A `Nodep` is a pointer to a graph node; distinct nodes are distinct
pointers, so a node is modelled by its index in the graph's node list.
`Out_Nodes_Data.node_map` keys exactly the already-visited nodes, i.e.
the indices below the current data length, so it is modelled as a list
of consumer lists indexed by node. -/

/-- The node variants `out_nodes.cpp` distinguishes: `CONSTANT` and
`VARIABLE` have no inputs, `QUERY` has a single `in_node`, every other
operator carries its ordered `in_nodes` list. -/
inductive MNode where
  | CONSTANT
  | VARIABLE
  | QUERY (in_node : Nat)
  | OPERATOR (in_nodes : List Nat)
deriving DecidableEq, Repr

/-- A node's declared input list. -/
def MNode.in_list : MNode → List Nat
  | .CONSTANT => []
  | .VARIABLE => []
  | .QUERY j => [j]
  | .OPERATOR ins => ins

/-- The minibmg graph invariant: a node's inputs are nodes that appear
earlier in the graph's node list. -/
def MWF (g : List MNode) : Prop :=
  ∀ i, i < g.length → ∀ j ∈ (g.getD i .CONSTANT).in_list, j < i

instance (g : List MNode) : Decidable (MWF g) := by
  unfold MWF; infer_instance

/-- `Out_Nodes_Data::for_node`: return node `target`'s consumer list,
or throw `invalid_argument("node not in graph")` when the node has no
entry. -/
def for_node (data : List (List Nat)) (target : Nat) : Except Err (List Nat) :=
  if target < data.length then .ok (data.getD target [])
  else .error (.invalid_argument "node not in graph")

/-- `predecessor_out_set.push_back(node)` inside `create`: append
consumer `i` to node `target`'s list, failing like `for_node` when the
entry is missing. -/
def appendOut (i : Nat) (data : List (List Nat)) (target : Nat) :
    Except Err (List (List Nat)) :=
  if target < data.length then .ok (data.set target (data.getD target [] ++ [i]))
  else .error (.invalid_argument "node not in graph")

/-- One iteration of the `create` loop: give the node (whose index is
the current map size) an empty consumer list, then append it to each of
its inputs' lists — no inputs for `CONSTANT`/`VARIABLE`, the single
`in_node` for `QUERY`, each element of `in_nodes` in order
otherwise. -/
def createNode (data : List (List Nat)) (node : MNode) : Except Err (List (List Nat)) :=
  let data1 := data ++ [[]]
  match node with
  | .CONSTANT => .ok data1
  | .VARIABLE => .ok data1
  | .QUERY j => appendOut data.length data1 j
  | .OPERATOR ins => ins.foldlM (appendOut data.length) data1

/-- `Out_Nodes_Property::create`: fold the loop body over the graph's
nodes in stored order, starting from an empty map. -/
def out_nodes_create (g : List MNode) : Except Err (List (List Nat)) :=
  g.foldlM createNode []

/-- `out_nodes(graph, node)`: build (or fetch — the property cache
memoizes the same structure) the out-node data for the graph, then look
the node up. -/
def out_nodes (g : List MNode) (node : Nat) : Except Err (List Nat) := do
  let data ← out_nodes_create g
  for_node data node

/-- Closed form of node `A`'s consumer list: each node `B`, in graph
order, contributes one occurrence of `B` per occurrence of `A` in `B`'s
input list. -/
def outSpec (g : List MNode) (A : Nat) : List Nat :=
  ((List.range g.length).map fun B =>
    List.replicate ((g.getD B .CONSTANT).in_list.count A) B).flatten

/-- A concrete minibmg graph for the witnesses: an operator consuming
node 0 twice, and a query on the operator. -/
def gM1 : List MNode := [.VARIABLE, .OPERATOR [0, 0], .QUERY 1]

/-! ## Helper lemmas about the flatten/unflatten codec -/

theorem NodeValue.length_flatten (v : NodeValue) : v.flatten.length = v.flatSize := by
  cases v <;> rfl

theorem GNode.write_unconstrained_self (n : GNode) (rest : List ℚ) :
    n.write_unconstrained (n.unconstrained_value.flatten ++ rest) = n := by
  cases n with
  | mk o s val uv g tt =>
    cases uv <;> simp [GNode.write_unconstrained, NodeValue.flatten, List.take_left]

theorem GNode.unconstrained_get_original_value
    (T : TransformType → NodeValue → NodeValue) (n : GNode) :
    (n.get_original_value T).unconstrained_value = n.unconstrained_value := rfl

theorem setFlattenedLoop_self (T : TransformType → NodeValue → NodeValue) :
    ∀ stoch : List GNode,
      (setFlattenedLoop T stoch
          ((stoch.map fun n => n.unconstrained_value.flatten).flatten)).map
          GNode.unconstrained_value
        = stoch.map GNode.unconstrained_value := by
  intro stoch
  induction stoch with
  | nil => rfl
  | cons n ns ih =>
    simp only [List.map_cons, List.flatten_cons, setFlattenedLoop,
      GNode.write_unconstrained_self, ← NodeValue.length_flatten, List.drop_left]
    by_cases h : n.transform_type ≠ TransformType.NONE <;>
      simp [h, GNode.unconstrained_get_original_value, GNode.get_original_value, ih]

theorem length_get_flattened (gs : GlobalState) :
    gs.get_flattened_unconstrained_values.length = computeFlatSize gs.stochastic_nodes := by
  simp [GlobalState.get_flattened_unconstrained_values, computeFlatSize,
    List.length_flatten, List.map_map, Function.comp_def, NodeValue.length_flatten]

theorem computeFlatSize_nil : computeFlatSize [] = 0 := rfl

theorem computeFlatSize_cons (n : GNode) (ns : List GNode) :
    computeFlatSize (n :: ns) = n.unconstrained_value.flatSize + computeFlatSize ns := by
  simp [computeFlatSize]

theorem unconstrained_sync (T : TransformType → NodeValue → NodeValue) (n : GNode) :
    (if n.transform_type ≠ TransformType.NONE
     then n.get_original_value T else n).unconstrained_value
      = n.unconstrained_value := by
  by_cases hT : n.transform_type ≠ TransformType.NONE <;> simp [hT, GNode.get_original_value]

theorem write_unconstrained_transform_type (n : GNode) (xs : List ℚ) :
    (n.write_unconstrained xs).transform_type = n.transform_type := by
  cases h : n.unconstrained_value <;> simp [GNode.write_unconstrained, h]

theorem NodeValue.flatten_scalar (d : ℚ) : (NodeValue.scalar d).flatten = [d] := rfl

theorem NodeValue.flatten_matrix (m : List ℚ) : (NodeValue.matrix m).flatten = m := rfl

theorem NodeValue.flatSize_scalar (d : ℚ) : (NodeValue.scalar d).flatSize = 1 := rfl

theorem NodeValue.flatSize_matrix (m : List ℚ) :
    (NodeValue.matrix m).flatSize = m.length := rfl

theorem flatten_setFlattenedLoop (T : TransformType → NodeValue → NodeValue) :
    ∀ (stoch : List GNode) (xs : List ℚ), xs.length = computeFlatSize stoch →
      ((setFlattenedLoop T stoch xs).map fun n => n.unconstrained_value.flatten).flatten
        = xs := by
  intro stoch
  induction stoch with
  | nil =>
    intro xs h
    rw [computeFlatSize_nil] at h
    simp only [List.length_eq_zero] at h
    simp [setFlattenedLoop, h]
  | cons n ns ih =>
    intro xs h
    rw [computeFlatSize_cons] at h
    simp only [setFlattenedLoop, List.map_cons, List.flatten_cons, unconstrained_sync]
    cases huvn : n.unconstrained_value with
    | scalar d =>
      rw [huvn, NodeValue.flatSize_scalar] at h
      cases xs with
      | nil => simp at h; omega
      | cons x xs' =>
        have hw : (n.write_unconstrained (x :: xs')).unconstrained_value
            = NodeValue.scalar x := by
          simp [GNode.write_unconstrained, huvn]
        rw [hw, NodeValue.flatten_scalar, NodeValue.flatSize_scalar]
        simp only [List.drop_succ_cons, List.drop_zero]
        simp only [List.length_cons] at h
        rw [ih xs' (by omega)]
        rfl
    | matrix m =>
      rw [huvn, NodeValue.flatSize_matrix] at h
      have hw : (n.write_unconstrained xs).unconstrained_value
          = NodeValue.matrix (xs.take m.length) := by
        simp [GNode.write_unconstrained, huvn]
      rw [hw, NodeValue.flatten_matrix, NodeValue.flatSize_matrix,
        ih (xs.drop m.length) (by simp only [List.length_drop]; omega)]
      exact List.take_append_drop _ _

theorem computeFlatSize_setFlattenedLoop (T : TransformType → NodeValue → NodeValue)
    (stoch : List GNode) (xs : List ℚ) (h : xs.length = computeFlatSize stoch) :
    computeFlatSize (setFlattenedLoop T stoch xs) = computeFlatSize stoch := by
  have h1 :
      (((setFlattenedLoop T stoch xs).map fun n => n.unconstrained_value.flatten).flatten).length
        = computeFlatSize (setFlattenedLoop T stoch xs) := by
    simp [computeFlatSize, List.length_flatten, List.map_map, Function.comp_def,
      NodeValue.length_flatten]
  rw [flatten_setFlattenedLoop T stoch xs h] at h1
  omega

theorem length_setFlattenedLoop (T : TransformType → NodeValue → NodeValue) :
    ∀ (stoch : List GNode) (xs : List ℚ),
      (setFlattenedLoop T stoch xs).length = stoch.length := by
  intro stoch
  induction stoch with
  | nil => intro xs; rfl
  | cons n ns ih => intro xs; simp [setFlattenedLoop, ih]

/-! ## C1, C4 -/

/-- C1: Flatten round-trip — on a `GlobalState` whose construction has
completed (so `flat_size` agrees with the stochastic nodes' total
unconstrained width), `set_flattened_unconstrained_values` applied to
the output of `get_flattened_unconstrained_values` succeeds and leaves
every stochastic node's unconstrained value identical to its value
before the pair of calls. -/
theorem flatten_round_trip (T : TransformType → NodeValue → NodeValue)
    (gs : GlobalState)
    (hinv : gs.flat_size = computeFlatSize gs.stochastic_nodes) :
    ∃ gs',
      gs.set_flattened_unconstrained_values T gs.get_flattened_unconstrained_values
        = .ok gs'
      ∧ gs'.stochastic_nodes.map GNode.unconstrained_value
        = gs.stochastic_nodes.map GNode.unconstrained_value := by
  have hlen : gs.get_flattened_unconstrained_values.length = gs.flat_size := by
    rw [length_get_flattened, hinv]
  refine ⟨{ gs with stochastic_nodes :=
      setFlattenedLoop T gs.stochastic_nodes gs.get_flattened_unconstrained_values },
    ?_, ?_⟩
  · simp [GlobalState.set_flattened_unconstrained_values, hlen]
  · simpa [GlobalState.get_flattened_unconstrained_values]
      using setFlattenedLoop_self T gs.stochastic_nodes

/-- Witness for C1 at the concrete state `gs0`. -/
theorem flatten_round_trip_witness :
    gs0.flat_size = computeFlatSize gs0.stochastic_nodes
    ∧ ∃ gs',
        gs0.set_flattened_unconstrained_values T0 gs0.get_flattened_unconstrained_values
          = .ok gs'
        ∧ gs'.stochastic_nodes.map GNode.unconstrained_value
          = gs0.stochastic_nodes.map GNode.unconstrained_value :=
  ⟨by decide, flatten_round_trip T0 gs0 (by decide)⟩

/-- C4: Size-mismatch error with no partial mutation — with an input
vector whose length differs from `flat_size`, both
`set_flattened_unconstrained_values` and
`add_to_stochastic_unconstrained_nodes` fail with the
`std::invalid_argument` size-mismatch error before any write: the
error carries the state unchanged, so every node's unconstrained
value, original value, and gradient are untouched. -/
theorem size_mismatch_no_mutation (T : TransformType → NodeValue → NodeValue)
    (gs : GlobalState) (xs : List ℚ) (h : xs.length ≠ gs.flat_size) :
    gs.set_flattened_unconstrained_values T xs
      = .error (.invalid_argument
          "The size of flattened_values is inconsistent with the values in the graph", gs)
    ∧ gs.add_to_stochastic_unconstrained_nodes T xs
      = .error (.invalid_argument
          "The size of increment is inconsistent with the values in the graph", gs) := by
  constructor
  · simp [GlobalState.set_flattened_unconstrained_values, h]
  · simp [GlobalState.add_to_stochastic_unconstrained_nodes, h]

/-- Witness for C4: a 3-element vector against `flat_size = 4`. -/
theorem size_mismatch_no_mutation_witness :
    ([1, 2, 3] : List ℚ).length ≠ gs0.flat_size
    ∧ (gs0.set_flattened_unconstrained_values T0 [1, 2, 3]
        = .error (.invalid_argument
            "The size of flattened_values is inconsistent with the values in the graph", gs0)
      ∧ gs0.add_to_stochastic_unconstrained_nodes T0 [1, 2, 3]
        = .error (.invalid_argument
            "The size of increment is inconsistent with the values in the graph", gs0)) :=
  ⟨by decide, size_mismatch_no_mutation T0 gs0 [1, 2, 3] (by decide)⟩

/-! ## C3 -/

theorem zipWith_add_assoc (a b c : List ℚ) :
    List.zipWith (· + ·) (List.zipWith (· + ·) a b) c
      = List.zipWith (· + ·) a (List.zipWith (· + ·) b c) := by
  induction a generalizing b c with
  | nil => simp
  | cons x a ih => cases b <;> cases c <;> simp [ih, add_assoc]

theorem set_flattened_ok (T : TransformType → NodeValue → NodeValue)
    (gs : GlobalState) (xs : List ℚ) (h : xs.length = gs.flat_size) :
    gs.set_flattened_unconstrained_values T xs = .ok (gs.setResult T xs) := by
  simp [GlobalState.set_flattened_unconstrained_values, GlobalState.setResult, h]

theorem add_to_ok (T : TransformType → NodeValue → NodeValue) (gs : GlobalState)
    (v : List ℚ) (hinv : gs.flat_size = computeFlatSize gs.stochastic_nodes)
    (hv : v.length = gs.flat_size) :
    gs.add_to_stochastic_unconstrained_nodes T v = .ok (gs.addResult T v) := by
  have hg : gs.get_flattened_unconstrained_values.length = gs.flat_size := by
    rw [length_get_flattened, hinv]
  have hsum : (List.zipWith (· + ·) gs.get_flattened_unconstrained_values v).length
      = gs.flat_size := by
    simp [List.length_zipWith, hg, hv]
  rw [GlobalState.add_to_stochastic_unconstrained_nodes, if_neg (by omega)]
  exact set_flattened_ok T gs _ hsum

theorem setResult_stochastic_nodes (T : TransformType → NodeValue → NodeValue)
    (gs : GlobalState) (xs : List ℚ) :
    (gs.setResult T xs).stochastic_nodes = setFlattenedLoop T gs.stochastic_nodes xs := rfl

theorem setResult_flat_size (T : TransformType → NodeValue → NodeValue)
    (gs : GlobalState) (xs : List ℚ) :
    (gs.setResult T xs).flat_size = gs.flat_size := rfl

theorem get_setResult (T : TransformType → NodeValue → NodeValue)
    (gs : GlobalState) (xs : List ℚ)
    (h : xs.length = computeFlatSize gs.stochastic_nodes) :
    (gs.setResult T xs).get_flattened_unconstrained_values = xs := by
  simpa [GlobalState.get_flattened_unconstrained_values, GlobalState.setResult]
    using flatten_setFlattenedLoop T gs.stochastic_nodes xs h

theorem get_addResult (T : TransformType → NodeValue → NodeValue)
    (gs : GlobalState) (v : List ℚ)
    (hinv : gs.flat_size = computeFlatSize gs.stochastic_nodes)
    (hv : v.length = gs.flat_size) :
    (gs.addResult T v).get_flattened_unconstrained_values
      = List.zipWith (· + ·) gs.get_flattened_unconstrained_values v := by
  refine get_setResult T gs _ ?_
  simp [List.length_zipWith, length_get_flattened, hv, ← hinv]

theorem addResult_invariant (T : TransformType → NodeValue → NodeValue)
    (gs : GlobalState) (v : List ℚ)
    (hinv : gs.flat_size = computeFlatSize gs.stochastic_nodes)
    (hv : v.length = gs.flat_size) :
    (gs.addResult T v).flat_size
      = computeFlatSize (gs.addResult T v).stochastic_nodes := by
  rw [GlobalState.addResult, setResult_flat_size, setResult_stochastic_nodes,
    computeFlatSize_setFlattenedLoop]
  · exact hinv
  · simp [List.length_zipWith, length_get_flattened, hv, ← hinv]

/-- C3: Increment composition — on a constructed `GlobalState` (its
`flat_size` agrees with the stochastic nodes' total unconstrained
width), adding `v1` and then `v2` through
`add_to_stochastic_unconstrained_nodes` succeeds and yields the same
flattened unconstrained-values vector as one call with the
componentwise sum `v1 + v2`. -/
theorem increment_composition (T : TransformType → NodeValue → NodeValue)
    (gs : GlobalState)
    (hinv : gs.flat_size = computeFlatSize gs.stochastic_nodes)
    (v1 v2 : List ℚ) (h1 : v1.length = gs.flat_size) (h2 : v2.length = gs.flat_size) :
    ∃ a b c,
      gs.add_to_stochastic_unconstrained_nodes T v1 = .ok a
      ∧ a.add_to_stochastic_unconstrained_nodes T v2 = .ok b
      ∧ gs.add_to_stochastic_unconstrained_nodes T (List.zipWith (· + ·) v1 v2) = .ok c
      ∧ b.get_flattened_unconstrained_values = c.get_flattened_unconstrained_values := by
  have hinvA := addResult_invariant T gs v1 hinv h1
  have h2A : v2.length = (gs.addResult T v1).flat_size := h2
  have h12 : (List.zipWith (· + ·) v1 v2).length = gs.flat_size := by
    simp [List.length_zipWith, h1, h2]
  refine ⟨_, _, _, add_to_ok T gs v1 hinv h1, add_to_ok T _ v2 hinvA h2A,
    add_to_ok T gs _ hinv h12, ?_⟩
  rw [get_addResult T _ v2 hinvA h2A, get_addResult T gs v1 hinv h1,
    get_addResult T gs _ hinv h12, zipWith_add_assoc]

/-- Witness for C3 at the concrete state `gs0` with `v1 = [1,1,1,1]`
and `v2 = [2,0,1,3]`. -/
theorem increment_composition_witness :
    gs0.flat_size = computeFlatSize gs0.stochastic_nodes
    ∧ ([1, 1, 1, 1] : List ℚ).length = gs0.flat_size
    ∧ ([2, 0, 1, 3] : List ℚ).length = gs0.flat_size
    ∧ ∃ a b c,
        gs0.add_to_stochastic_unconstrained_nodes T0 [1, 1, 1, 1] = .ok a
        ∧ a.add_to_stochastic_unconstrained_nodes T0 [2, 0, 1, 3] = .ok b
        ∧ gs0.add_to_stochastic_unconstrained_nodes T0
            (List.zipWith (· + ·) [1, 1, 1, 1] [2, 0, 1, 3]) = .ok c
        ∧ b.get_flattened_unconstrained_values = c.get_flattened_unconstrained_values :=
  ⟨by decide, by decide, by decide,
    increment_composition T0 gs0 (by decide) [1, 1, 1, 1] [2, 0, 1, 3]
      (by decide) (by decide)⟩

/-! ## C2 -/

theorem mutateUnconstrained_nil_vals (ns : List GNode) :
    mutateUnconstrained ns [] = ns := by
  cases ns <;> rfl

theorem revert_mutate_core (T : TransformType → NodeValue → NodeValue) :
    ∀ (stoch : List GNode) (vals : List NodeValue),
      List.zipWith
          (fun n b => GNode.get_original_value T { n with unconstrained_value := b })
          (mutateUnconstrained stoch vals) (stoch.map GNode.unconstrained_value)
        = stoch.map (GNode.get_original_value T) := by
  intro stoch
  induction stoch with
  | nil => intro vals; cases vals <;> rfl
  | cons n ns ih =>
    intro vals
    cases vals with
    | nil =>
      simp only [mutateUnconstrained_nil_vals, List.map_cons, List.zipWith_cons_cons]
      have := ih []
      rw [mutateUnconstrained_nil_vals] at this
      rw [this]
    | cons v vs =>
      simp only [mutateUnconstrained, List.map_cons, List.zipWith_cons_cons, ih vs]

/-- C2: Backup/revert restores the snapshot — after
`backup_unconstrained_values()`, an arbitrary mutation of the
stochastic nodes' unconstrained values, and
`revert_unconstrained_values()`, every stochastic node's unconstrained
value is back to the backed-up snapshot, and every node's original
(constrained) value has been recomputed from the restored unconstrained
value via its transform, so the two representations are consistent.
Revert touches every stochastic node (there is no partial-rollback
mode). -/
theorem backup_revert_restores (T : TransformType → NodeValue → NodeValue)
    (gs : GlobalState) (newVals : List NodeValue) :
    ((((gs.backup_unconstrained_values).mutate newVals).revert_unconstrained_values
        T).stochastic_nodes).map GNode.unconstrained_value
      = gs.stochastic_nodes.map GNode.unconstrained_value
    ∧ ∀ n ∈ (((gs.backup_unconstrained_values).mutate newVals).revert_unconstrained_values
        T).stochastic_nodes,
        n.value = T n.transform_type n.unconstrained_value := by
  have hstoch :
      ((((gs.backup_unconstrained_values).mutate newVals).revert_unconstrained_values
          T).stochastic_nodes)
        = gs.stochastic_nodes.map (GNode.get_original_value T) := by
    simp only [GlobalState.backup_unconstrained_values, GlobalState.mutate,
      GlobalState.revert_unconstrained_values]
    exact revert_mutate_core T gs.stochastic_nodes newVals
  constructor
  · rw [hstoch, List.map_map]
    rfl
  · rw [hstoch]
    intro n hn
    obtain ⟨m, hm, rfl⟩ := List.mem_map.1 hn
    rfl

/-! ## C6, C9 -/

theorem count_filter_eq {α : Type} [DecidableEq α] (p : α → Bool) (l : List α) (a : α) :
    (l.filter p).count a = if p a then l.count a else 0 := by
  induction l with
  | nil => simp
  | cons b l ih =>
    by_cases hb : p b
    · rw [List.filter_cons_of_pos hb]
      by_cases hab : b = a
      · subst hab
        simp [List.count_cons_self, ih, hb]
      · rw [List.count_cons_of_ne (Ne.symm hab), List.count_cons_of_ne
          (Ne.symm hab), ih]
    · rw [List.filter_cons_of_neg (by simpa using hb)]
      by_cases hab : b = a
      · subst hab
        simp [List.count_cons_self, ih, hb]
      · rw [List.count_cons_of_ne (Ne.symm hab), ih]

theorem construct_stochastic_nodes (sup : List GNode) (lp : ℚ) :
    (GlobalState.construct sup lp).stochastic_nodes
      = sup.filter fun n => n.is_stochastic && !n.is_observed := rfl

theorem construct_deterministic_nodes (sup : List GNode) (lp : ℚ) :
    (GlobalState.construct sup lp).deterministic_nodes
      = sup.filter fun n => !n.is_stochastic := rfl

theorem construct_flat_size (sup : List GNode) (lp : ℚ) :
    (GlobalState.construct sup lp).flat_size
      = computeFlatSize (sup.filter fun n => n.is_stochastic && !n.is_observed) := rfl

/-- C6: Partition pass — after construction, `stochastic_nodes` is
exactly the unobserved stochastic nodes of `ordered_support`, in
encounter order (a sublist with the exact multiplicities), and
`deterministic_nodes` is exactly the non-stochastic nodes of
`ordered_support`, in encounter order; an observed stochastic node goes
into neither sequence. -/
theorem partition_pass (sup : List GNode) (lp : ℚ) :
    (GlobalState.construct sup lp).stochastic_nodes.Sublist sup
    ∧ (∀ n : GNode, (GlobalState.construct sup lp).stochastic_nodes.count n
        = if n.is_stochastic = true ∧ n.is_observed = false then sup.count n else 0)
    ∧ (GlobalState.construct sup lp).deterministic_nodes.Sublist sup
    ∧ (∀ n : GNode, (GlobalState.construct sup lp).deterministic_nodes.count n
        = if n.is_stochastic = false then sup.count n else 0)
    ∧ ∀ n ∈ sup, n.is_stochastic = true → n.is_observed = true →
        n ∉ (GlobalState.construct sup lp).stochastic_nodes
        ∧ n ∉ (GlobalState.construct sup lp).deterministic_nodes := by
  rw [construct_stochastic_nodes, construct_deterministic_nodes]
  refine ⟨List.filter_sublist sup, ?_, List.filter_sublist sup, ?_, ?_⟩
  · intro n
    rw [count_filter_eq]
    simp only [Bool.and_eq_true, Bool.not_eq_true']
  · intro n
    rw [count_filter_eq]
    simp only [Bool.not_eq_true']
  · intro n _ hsto hobs
    constructor
    · simp [List.mem_filter, hsto, hobs]
    · simp [List.mem_filter, hsto]

/-- C9: `flat_size` consistency — after construction, `flat_size`
equals the sum over `stochastic_nodes` of 1 per scalar-valued
unconstrained representation and the element count per matrix-valued
one; the flattened-values vector has length `flat_size` and is the
concatenation of the per-node segments in declared order, each segment
as long as its node's declared width.  In particular, for the declared
shapes [scalar, 3-vector, scalar] the total is `1 + 3 + 1 = 5`. -/
theorem flat_size_consistency (sup : List GNode) (lp : ℚ) :
    (GlobalState.construct sup lp).flat_size
      = ((GlobalState.construct sup lp).stochastic_nodes.map
          fun n => n.unconstrained_value.flatSize).sum
    ∧ (GlobalState.construct sup lp).get_flattened_unconstrained_values.length
      = (GlobalState.construct sup lp).flat_size
    ∧ (GlobalState.construct sup lp).get_flattened_unconstrained_values
      = ((GlobalState.construct sup lp).stochastic_nodes.map
          fun n => n.unconstrained_value.flatten).flatten
    ∧ (∀ n ∈ (GlobalState.construct sup lp).stochastic_nodes,
        n.unconstrained_value.flatten.length = n.unconstrained_value.flatSize)
    ∧ (GlobalState.construct [nodeS, nodeM, nodeS2] 0).flat_size = 1 + 3 + 1 := by
  refine ⟨rfl, ?_, rfl, fun n _ => NodeValue.length_flatten n.unconstrained_value, by decide⟩
  rw [length_get_flattened, construct_stochastic_nodes, construct_flat_size]

/-! ## C10 -/

theorem set_flattened_ok_inv (T : TransformType → NodeValue → NodeValue)
    (gs : GlobalState) (xs : List ℚ) (gs' : GlobalState)
    (h : gs.set_flattened_unconstrained_values T xs = .ok gs') :
    gs' = gs.setResult T xs := by
  rw [GlobalState.set_flattened_unconstrained_values] at h
  split at h
  · cases h
  · cases h
    rfl

theorem add_to_ok_inv (T : TransformType → NodeValue → NodeValue)
    (gs : GlobalState) (xs : List ℚ) (gs' : GlobalState)
    (h : gs.add_to_stochastic_unconstrained_nodes T xs = .ok gs') :
    ∃ s, gs' = gs.setResult T s := by
  rw [GlobalState.add_to_stochastic_unconstrained_nodes] at h
  split at h
  · cases h
  · exact ⟨_, set_flattened_ok_inv T gs _ gs' h⟩

theorem aligned_setResult (T : TransformType → NodeValue → NodeValue)
    (gs : GlobalState) (xs : List ℚ) (h : gs.aligned) :
    (gs.setResult T xs).aligned := by
  obtain ⟨h1, h2⟩ := h
  exact ⟨by simpa [GlobalState.setResult, length_setFlattenedLoop] using h1,
    by simpa [GlobalState.setResult, length_setFlattenedLoop] using h2⟩

/-- C10: Parallel-backup alignment — the two backup sequences each keep
exactly one slot per stochastic node: the invariant holds after
construction (where slot `i` is initialized to node `i`'s unconstrained
value / gradient snapshot) and is preserved by backup, revert,
unflatten (`set`), increment (`add`), log-prob refresh and gradient
refresh; a backup call rewrites slot `i` with node `i`'s current
value. -/
theorem parallel_backup_alignment (T : TransformType → NodeValue → NodeValue)
    (f : GNode → NodeValue) (lp : ℚ) (gs : GlobalState) (h : gs.aligned) :
    (gs.backup_unconstrained_values).aligned
    ∧ (gs.backup_unconstrained_values).stochastic_unconstrained_vals_backup
        = gs.stochastic_nodes.map GNode.unconstrained_value
    ∧ (gs.backup_unconstrained_grads).aligned
    ∧ (gs.backup_unconstrained_grads).stochastic_unconstrained_grads_backup
        = gs.stochastic_nodes.map GNode.back_grad1
    ∧ (gs.revert_unconstrained_values T).aligned
    ∧ (gs.revert_unconstrained_grads).aligned
    ∧ (∀ (xs : List ℚ) (gs' : GlobalState),
        gs.set_flattened_unconstrained_values T xs = .ok gs' → gs'.aligned)
    ∧ (∀ (xs : List ℚ) (gs' : GlobalState),
        gs.add_to_stochastic_unconstrained_nodes T xs = .ok gs' → gs'.aligned)
    ∧ (gs.update_log_prob lp).aligned
    ∧ (gs.update_backgrad f).aligned
    ∧ ∀ (sup : List GNode) (lp' : ℚ),
        (GlobalState.construct sup lp').aligned
        ∧ (GlobalState.construct sup lp').stochastic_unconstrained_vals_backup
            = (GlobalState.construct sup lp').stochastic_nodes.map GNode.unconstrained_value
        ∧ (GlobalState.construct sup lp').stochastic_unconstrained_grads_backup
            = (GlobalState.construct sup lp').stochastic_nodes.map GNode.back_grad1 := by
  obtain ⟨h1, h2⟩ := h
  refine ⟨⟨by simp [GlobalState.backup_unconstrained_values], by
      simpa [GlobalState.backup_unconstrained_values] using h2⟩,
    rfl,
    ⟨by simpa [GlobalState.backup_unconstrained_grads] using h1,
      by simp [GlobalState.backup_unconstrained_grads]⟩,
    rfl,
    ⟨?_, ?_⟩, ⟨?_, ?_⟩,
    fun xs gs' hok => by
      rw [set_flattened_ok_inv T gs xs gs' hok]
      exact aligned_setResult T gs xs ⟨h1, h2⟩,
    fun xs gs' hok => by
      obtain ⟨s, rfl⟩ := add_to_ok_inv T gs xs gs' hok
      exact aligned_setResult T gs s ⟨h1, h2⟩,
    ⟨by simpa [GlobalState.update_log_prob] using h1,
      by simpa [GlobalState.update_log_prob] using h2⟩,
    ⟨by simpa [GlobalState.update_backgrad] using h1,
      by simpa [GlobalState.update_backgrad] using h2⟩,
    fun sup lp' => by
      refine ⟨⟨?_, ?_⟩, rfl, rfl⟩
      · show ((GlobalState.construct sup lp').stochastic_nodes.map
            GNode.unconstrained_value).length
            = (GlobalState.construct sup lp').stochastic_nodes.length
        exact List.length_map _ _
      · show ((GlobalState.construct sup lp').stochastic_nodes.map
            GNode.back_grad1).length
            = (GlobalState.construct sup lp').stochastic_nodes.length
        exact List.length_map _ _⟩
  · simpa [GlobalState.revert_unconstrained_values, List.length_zipWith] using by omega
  · simpa [GlobalState.revert_unconstrained_values, List.length_zipWith] using by omega
  · simpa [GlobalState.revert_unconstrained_grads, List.length_zipWith] using by omega
  · simpa [GlobalState.revert_unconstrained_grads, List.length_zipWith] using by omega

/-- Witness for C10 at the concrete state `gs0`. -/
theorem parallel_backup_alignment_witness :
    gs0.aligned
    ∧ ((gs0.backup_unconstrained_values).aligned
      ∧ (gs0.backup_unconstrained_values).stochastic_unconstrained_vals_backup
          = gs0.stochastic_nodes.map GNode.unconstrained_value) :=
  ⟨by decide,
    (parallel_backup_alignment T0 f0 0 gs0 (by decide)).1,
    (parallel_backup_alignment T0 f0 0 gs0 (by decide)).2.1⟩

/-! ## C5 -/

theorem pairwise_orderedSupportIds (g : List SNode) :
    (orderedSupportIds g).Pairwise (· < ·) :=
  (List.pairwise_lt_range _).filter _

theorem indexOf_lt_indexOf :
    ∀ {l : List Nat}, l.Pairwise (· < ·) → ∀ {a b : Nat},
      a ∈ l → b ∈ l → a < b → l.indexOf a < l.indexOf b := by
  intro l
  induction l with
  | nil => intro _ a b ha; cases ha
  | cons x l ih =>
    intro hp a b ha hb hab
    have hx : ∀ y ∈ l, x < y := fun y hy => (List.pairwise_cons.1 hp).1 y hy
    have hp' : l.Pairwise (· < ·) := (List.pairwise_cons.1 hp).2
    by_cases hax : a = x
    · subst hax
      have hbx : b ≠ a := fun hba => absurd (hba ▸ hab) (lt_irrefl b ∘ (hba ▸ ·))
      have hbl : b ∈ l := (List.mem_cons.1 hb).resolve_left hbx
      rw [List.indexOf_cons_self, List.indexOf_cons_ne l (Ne.symm hbx)]
      exact Nat.succ_pos _
    · have hal : a ∈ l := (List.mem_cons.1 ha).resolve_left hax
      have hbx : b ≠ x := by
        intro hbxe
        exact absurd (hbxe ▸ hab) (not_lt.2 (le_of_lt (hx a hal)))
      have hbl : b ∈ l := (List.mem_cons.1 hb).resolve_left hbx
      rw [List.indexOf_cons_ne l (Ne.symm hax), List.indexOf_cons_ne l (Ne.symm hbx)]
      exact Nat.succ_lt_succ (ih hp' hal hbl hab)

/-- C5: Support minimality and order — under the graph invariant that
inputs reference earlier nodes, every id collected into
`ordered_support` is a member of `compute_support`'s ancestor-closure,
and for every node of the support, each of its inputs that is also in
the support appears strictly before it in `ordered_support`. -/
theorem support_minimality_and_order (g : List SNode) (hwf : SWF g) :
    (∀ x ∈ orderedSupportIds g, x ∈ computeSupport g)
    ∧ ∀ i ∈ orderedSupportIds g, ∀ j ∈ (g.getD i default).inputs,
        j ∈ orderedSupportIds g →
        (orderedSupportIds g).indexOf j < (orderedSupportIds g).indexOf i := by
  constructor
  · intro x hx
    exact of_decide_eq_true (List.mem_filter.1 hx).2
  · intro i hi j hj hjS
    have hi' : i < g.length := List.mem_range.1 (List.mem_filter.1 hi).1
    have hji : j < i := hwf i hi' j hj
    exact indexOf_lt_indexOf (pairwise_orderedSupportIds g) hjS hi hji

/-- Witness for C5 on the concrete three-node graph `gS1`. -/
theorem support_minimality_and_order_witness :
    SWF gS1
    ∧ ((∀ x ∈ orderedSupportIds gS1, x ∈ computeSupport gS1)
      ∧ ∀ i ∈ orderedSupportIds gS1, ∀ j ∈ (gS1.getD i default).inputs,
          j ∈ orderedSupportIds gS1 →
          (orderedSupportIds gS1).indexOf j < (orderedSupportIds gS1).indexOf i) :=
  ⟨by decide, support_minimality_and_order gS1 (by decide)⟩

/-! ## C7, C8 -/

theorem getD_set_self : ∀ (l : List (List Nat)) (j : Nat) (v : List Nat),
    j < l.length → (l.set j v).getD j [] = v
  | [], j, v, h => absurd h (by simp)
  | _ :: _, 0, v, h => rfl
  | _ :: l, j + 1, v, h => getD_set_self l j v (by simpa using h)

theorem getD_set_ne : ∀ (l : List (List Nat)) (i j : Nat) (v : List Nat),
    i ≠ j → (l.set i v).getD j [] = l.getD j []
  | [], _, _, _, _ => rfl
  | _ :: _, 0, 0, _, h => absurd rfl h
  | _ :: _, 0, _ + 1, _, _ => rfl
  | _ :: _, _ + 1, 0, _, _ => rfl
  | _ :: l, i + 1, j + 1, v, h =>
    getD_set_ne l i j v fun e => h (by rw [e])

theorem foldlM_singleton {α β : Type} (f : β → α → Except Err β)
    (b : β) (a : α) : [a].foldlM f b = f b a := by
  cases h : f b a <;> simp [List.foldlM_cons, List.foldlM_nil, h]

theorem foldlM_appendOut (i : Nat) :
    ∀ (ins : List Nat) (data : List (List Nat)), (∀ j ∈ ins, j < data.length) →
      ∃ d', ins.foldlM (appendOut i) data = .ok d'
        ∧ d'.length = data.length
        ∧ ∀ A : Nat, d'.getD A [] = data.getD A [] ++ List.replicate (ins.count A) i := by
  intro ins
  induction ins with
  | nil =>
    intro data _
    exact ⟨data, rfl, rfl, fun A => by simp⟩
  | cons j rest ih =>
    intro data h
    have hj : j < data.length := h j (List.mem_cons_self j rest)
    have hstep : appendOut i data j = .ok (data.set j (data.getD j [] ++ [i])) := by
      simp [appendOut, hj]
    obtain ⟨d', hfold, hlen, hpt⟩ := ih (data.set j (data.getD j [] ++ [i]))
      fun x hx => by simpa using h x (List.mem_cons_of_mem j hx)
    refine ⟨d', ?_, by simpa using hlen, ?_⟩
    · rw [List.foldlM_cons, hstep]
      exact hfold
    · intro A
      rw [hpt A]
      by_cases hAj : A = j
      · subst hAj
        rw [getD_set_self data A _ hj]
        simp [List.count_cons, List.append_assoc, List.replicate_succ]
      · rw [getD_set_ne data j A _ (Ne.symm hAj), List.count_cons]
        simp [Ne.symm hAj]

theorem createNode_eq (data : List (List Nat)) (n : MNode) :
    createNode data n = n.in_list.foldlM (appendOut data.length) (data ++ [[]]) := by
  cases n with
  | CONSTANT => rfl
  | VARIABLE => rfl
  | QUERY j => exact (foldlM_singleton _ _ _).symm
  | OPERATOR ins => rfl

theorem MWF_of_append (g : List MNode) (n : MNode) (h : MWF (g ++ [n])) : MWF g := by
  intro i hi j hj
  have hlt : i < (g ++ [n]).length := by simp; omega
  apply h i hlt j
  rw [List.getD_append _ _ _ _ hi]
  exact hj

theorem outSpec_eq_nil_of_ge (g : List MNode) (hwf : MWF g) (A : Nat)
    (h : g.length ≤ A) : outSpec g A = [] := by
  unfold outSpec
  rw [List.flatten_eq_nil_iff]
  intro l hl
  obtain ⟨B, hB, rfl⟩ := List.mem_map.1 hl
  have hBlen : B < g.length := List.mem_range.1 hB
  have hz : (g.getD B .CONSTANT).in_list.count A = 0 := by
    rw [List.count_eq_zero]
    intro hmem
    have := hwf B hBlen A hmem
    omega
  rw [hz, List.replicate_zero]

theorem outSpec_append (g : List MNode) (n : MNode) (A : Nat) :
    outSpec (g ++ [n]) A
      = outSpec g A ++ List.replicate (n.in_list.count A) g.length := by
  unfold outSpec
  simp only [List.length_append, List.length_singleton]
  rw [List.range_succ, List.map_append, List.flatten_append]
  congr 1
  · apply congrArg List.flatten
    apply List.map_congr_left
    intro B hB
    rw [List.getD_append _ _ _ _ (List.mem_range.1 hB)]
  · simp [List.getD_append_right g [n] _ _ (le_refl g.length)]

theorem out_nodes_create_eq (g : List MNode) : MWF g →
    ∃ data, out_nodes_create g = .ok data ∧ data.length = g.length
      ∧ ∀ A : Nat, data.getD A [] = outSpec g A := by
  induction g using List.reverseRecOn with
  | nil => exact fun _ => ⟨[], rfl, rfl, fun A => by simp [outSpec]⟩
  | append_singleton g n ih =>
    intro hwf
    obtain ⟨data, hcr, hlen, hpt⟩ := ih (MWF_of_append g n hwf)
    have hn : ∀ j ∈ n.in_list, j < g.length := by
      intro j hj
      have hglt : g.length < (g ++ [n]).length := by simp
      apply hwf g.length hglt j
      rw [List.getD_append_right g [n] _ _ (le_refl g.length)]
      simpa using hj
    have hcr' : g.foldlM createNode [] = Except.ok data := hcr
    have hstep : out_nodes_create (g ++ [n])
        = n.in_list.foldlM (appendOut data.length) (data ++ [[]]) := by
      show (g ++ [n]).foldlM createNode [] = _
      rw [List.foldlM_append, hcr']
      show [n].foldlM createNode data = _
      rw [foldlM_singleton, createNode_eq]
    have hbound : ∀ j ∈ n.in_list, j < (data ++ [[]]).length := by
      intro j hj
      have := hn j hj
      simp only [List.length_append, List.length_singleton]
      omega
    obtain ⟨d', hfold, hlen', hpt'⟩ :=
      foldlM_appendOut data.length n.in_list (data ++ [[]]) hbound
    refine ⟨d', by rw [hstep]; exact hfold, by simp [hlen', hlen], ?_⟩
    intro A
    have hsingle : ∀ k : Nat, ([[]] : List (List Nat)).getD k [] = [] := by
      intro k; cases k <;> rfl
    rw [hpt' A, outSpec_append]
    rcases Nat.lt_or_ge A g.length with hA | hA
    · rw [List.getD_append _ _ _ _ (show A < data.length by omega), hpt A, hlen]
    · have h2 : outSpec g A = [] :=
        outSpec_eq_nil_of_ge g (MWF_of_append g n hwf) A (by omega)
      rw [List.getD_append_right _ _ _ _ (show data.length ≤ A by omega),
        hsingle, h2, hlen]

theorem count_flatten_replicate (c : Nat → Nat) (B : Nat) :
    ∀ l : List Nat, l.Nodup →
      ((l.map fun x => List.replicate (c x) x).flatten).count B
        = if B ∈ l then c B else 0 := by
  intro l
  induction l with
  | nil => intro _; simp
  | cons x l ih =>
    intro hnd
    rw [List.map_cons, List.flatten_cons, List.count_append,
      List.count_replicate, ih (List.nodup_cons.1 hnd).2]
    by_cases hBx : B = x
    · subst hBx
      have hnotmem : B ∉ l := (List.nodup_cons.1 hnd).1
      simp [hnotmem]
    · simp [hBx, Ne.symm hBx]

theorem count_outSpec (g : List MNode) (A B : Nat) :
    (outSpec g A).count B = (g.getD B .CONSTANT).in_list.count A := by
  unfold outSpec
  rw [count_flatten_replicate _ B (List.range g.length) (List.nodup_range g.length)]
  by_cases hB : B ∈ List.range g.length
  · simp [hB]
  · rw [if_neg hB]
    have hge : g.length ≤ B := by
      simp only [List.mem_range, not_lt] at hB
      exact hB
    rw [List.getD_eq_default _ _ hge]
    rfl

theorem pairwise_outSpec (g : List MNode) (A : Nat) :
    (outSpec g A).Pairwise (· ≤ ·) := by
  unfold outSpec
  rw [List.pairwise_flatten]
  constructor
  · intro l hl
    obtain ⟨B, _, rfl⟩ := List.mem_map.1 hl
    rw [List.pairwise_replicate]
    right
    exact le_refl B
  · rw [List.pairwise_map]
    refine (List.pairwise_lt_range g.length).imp ?_
    intro B1 B2 hlt x hx y hy
    rw [(List.mem_replicate.1 hx).2, (List.mem_replicate.1 hy).2]
    exact le_of_lt hlt

/-- C7: Out-edge/in-edge duality with multiplicity — under the graph
invariant that inputs reference earlier nodes, with A in the graph,
`out_nodes(graph, A)` succeeds and every node B occurs in it exactly as
many times as A occurs in B's declared input list (none for a Constant
or Variable, the single input for a Query, once per input occurrence
for an Operator), with the entries in topological discovery order. -/
theorem out_edge_in_edge_duality (g : List MNode) (hwf : MWF g) (A : Nat)
    (hA : A < g.length) :
    ∃ l, out_nodes g A = .ok l
      ∧ (∀ B : Nat, l.count B = (g.getD B .CONSTANT).in_list.count A)
      ∧ l.Pairwise (· ≤ ·) := by
  obtain ⟨data, hcr, hlen, hpt⟩ := out_nodes_create_eq g hwf
  have hbind : out_nodes g A = for_node data A := by
    unfold out_nodes
    rw [hcr]
    rfl
  refine ⟨outSpec g A, ?_, fun B => count_outSpec g A B, pairwise_outSpec g A⟩
  rw [hbind]
  unfold for_node
  rw [if_pos (by omega), hpt A]

/-- Witness for C7 on the concrete graph `gM1`, at node 0 (consumed
twice by the operator at index 1). -/
theorem out_edge_in_edge_duality_witness :
    MWF gM1 ∧ 0 < gM1.length
    ∧ ∃ l, out_nodes gM1 0 = .ok l
      ∧ (∀ B : Nat, l.count B = (gM1.getD B .CONSTANT).in_list.count 0)
      ∧ l.Pairwise (· ≤ ·) :=
  ⟨by decide, by decide, out_edge_in_edge_duality gM1 (by decide) 0 (by decide)⟩

/-- C8: Not-found error — under the graph invariant, `out_nodes` on a
node present in the graph always succeeds (so the lookup is the only
error condition), and on a node not present in the graph it fails with
the `invalid_argument("node not in graph")` error. -/
theorem out_nodes_not_found (g : List MNode) (hwf : MWF g) (node : Nat) :
    (node < g.length → ∃ l, out_nodes g node = .ok l)
    ∧ (g.length ≤ node →
        out_nodes g node = .error (.invalid_argument "node not in graph")) := by
  obtain ⟨data, hcr, hlen, hpt⟩ := out_nodes_create_eq g hwf
  have hbind : out_nodes g node = for_node data node := by
    unfold out_nodes
    rw [hcr]
    rfl
  constructor
  · intro h
    refine ⟨data.getD node [], ?_⟩
    rw [hbind]
    unfold for_node
    rw [if_pos (by omega)]
  · intro h
    rw [hbind]
    unfold for_node
    rw [if_neg (by omega)]

/-- Witness for C8 on the concrete graph `gM1`: node 1 is present,
node 5 is not. -/
theorem out_nodes_not_found_witness :
    MWF gM1
    ∧ ((1 < gM1.length → ∃ l, out_nodes gM1 1 = .ok l)
      ∧ (gM1.length ≤ 1 →
          out_nodes gM1 1 = .error (.invalid_argument "node not in graph")))
    ∧ ((5 < gM1.length → ∃ l, out_nodes gM1 5 = .ok l)
      ∧ (gM1.length ≤ 5 →
          out_nodes gM1 5 = .error (.invalid_argument "node not in graph"))) :=
  ⟨by decide, out_nodes_not_found gM1 (by decide) 1, out_nodes_not_found gM1 (by decide) 5⟩
